import Mathlib

/-!
Shallow embedding of the MCP3428 ADC driver (mcp3428.py) and proofs about
its configuration encoding and sample decoding.

The driver has one piece of session state, the decode mask `self.msk`
(a natural number), and two operations:

* `set(cmode, rdy, ch, sps, pga)` (lines 66-139): normalizes each field with
  Python bitwise operations on arbitrary-precision integers, updates
  `self.msk` from the normalized sample rate, then locks the bus, attempts a
  one-byte write of the packed command (swallowing any exception with a
  print), unlocks, and returns the command byte.
* `get_raw_data()` (lines 141-171): locks the bus, attempts a two-byte read
  (swallowing any exception with a print), unlocks, and decodes the two
  bytes into a signed integer using the current mask.

Python's `&`, `|`, `<<`, `>>` on unbounded integers are modelled by
`Int.land`, `Int.lor` and the `Int` shift instances (two's-complement
semantics, identical to Python's). Bus effects are modelled by an explicit
event trace plus a `Bool`/`Option` oracle for the outcome of the single
bus call inside each operation; an exception raised by the bus call is the
`false`/`none` case. A read failure leaves the Python local `r` unbound, so
the subsequent decode statement raises `UnboundLocalError`; this is
modelled by an `Except.error` result.
-/

/-- Observable actions performed by the driver, in program order: bus lock
and unlock, the attempted one-byte write with its command and outcome, the
attempted two-byte read with its outcome, the print inside the except
block, the assignment to `self.msk`, and reaching the decode statement. -/
inductive Event where
  | lock
  | unlock
  | write (cmd : Int) (ok : Bool)
  | readBytes (ok : Bool)
  | log
  | mskUpdate (m : Nat)
  | decodeStep

/-- Result of one `set` call: the new value of `self.msk`, the returned
command byte, and the trace of observable actions. -/
structure SetResult where
  msk : Nat
  cmd : Int
  events : List Event

/-- Gain normalization, lines 118-120 of mcp3428.py: a value outside
{1,2,4,8} is replaced by 1, then `pga = pga>>1 if pga<=4 else 3`. -/
def normGain (pga : Int) : Int :=
  let pga := if pga ∉ ([1, 2, 4, 8] : List Int) then 1 else pga
  if pga ≤ 4 then pga >>> (1 : Int) else 3

/-- Sample-rate normalization, lines 116 and 123-128 of mcp3428.py:
`sps = sps & 3`, then the `else` branch of the mask update reassigns
`sps = 2` when the masked value is neither 0 nor 1. -/
def normSps (sps : Int) : Int :=
  if Int.land sps 3 = 0 then Int.land sps 3
  else if Int.land sps 3 = 1 then Int.land sps 3
  else 2

/-- Mask update, lines 116 and 123-129 of mcp3428.py: `self.msk` becomes
0x07, 0x1F or 0x7F according to the branch taken on `sps & 3`. -/
def mskOf (sps : Int) : Nat :=
  if Int.land sps 3 = 0 then 0x07
  else if Int.land sps 3 = 1 then 0x1F
  else 0x7F

/-- The `set` method, lines 66-139 of mcp3428.py. Arguments are
arbitrary Python integers. `writeOk` is the outcome of the bus write at
line 135: `false` means `self.write(cmd)` raised, in which case the
exception is printed (line 137) and swallowed. The mask assignment
(lines 123-129) happens before the lock/write, the lock is released on
both paths (line 138), and the command byte is returned (line 139). -/
def set (cmode rdy ch sps pga : Int) (writeOk : Bool) : SetResult :=
  let cmode := Int.land cmode 1
  let rdy := Int.land rdy 1
  let ch := Int.land ch 3
  let pga := normGain pga
  let spsN := normSps sps
  let msk := mskOf sps
  let cmd := Int.lor (Int.lor (Int.lor (Int.lor (rdy <<< (7 : Int))
      (ch <<< (5 : Int))) (cmode <<< (4 : Int))) (spsN <<< (2 : Int))) pga
  { msk := msk
    cmd := cmd
    events := [Event.mskUpdate msk, Event.lock, Event.write cmd writeOk] ++
      (if writeOk then [] else [Event.log]) ++ [Event.unlock] }

/-- Decoding step of `get_raw_data`, lines 165-169 of mcp3428.py:
`raw = (r[0]&self.msk)<<8 | r[1]`, then if bit 7 of `r[0]` is set,
`raw = raw - (self.msk<<8 | 0xFF) - 1`. -/
def decode (msk b0 b1 : Nat) : Int :=
  let raw : Int := ((b0 &&& msk) <<< 8 ||| b1 : Nat)
  if b0 >>> 7 ≠ 0 then raw - ((msk <<< 8 ||| 0xFF : Nat) : Int) - 1 else raw

/-- The `get_raw_data` method, lines 141-171 of mcp3428.py. `readResult`
is the outcome of `self.read(2, timeout=500)` at line 160: `some (b0, b1)`
is a successful two-byte read, `none` means the read raised, in which case
the exception is printed (line 162) and swallowed, the local `r` stays
unbound, and the decode statement at line 165 raises `UnboundLocalError`
when it evaluates `r[0]`. -/
def get_raw_data (msk : Nat) (readResult : Option (Nat × Nat)) :
    Except String Int × List Event :=
  match readResult with
  | some r =>
      (Except.ok (decode msk r.1 r.2),
        [Event.lock, Event.readBytes true, Event.unlock, Event.decodeStep])
  | none =>
      (Except.error "UnboundLocalError",
        [Event.lock, Event.readBytes false, Event.log, Event.unlock,
          Event.decodeStep])

/-- Reachable values of `self.msk`: it is set to 0x07 in `__init__`
(line 62 of mcp3428.py) and reassigned only by `set`. -/
inductive ReachableMsk : Nat → Prop where
  | init : ReachableMsk 0x07
  | step (m : Nat) (cmode rdy ch sps pga : Int) (w : Bool) :
      ReachableMsk m → ReachableMsk ((set cmode rdy ch sps pga w).msk)

/-- Bitwise set difference on naturals never exceeds its first argument. -/
lemma ldiff_le (a b : Nat) : Nat.ldiff a b ≤ a := by
  have h : Nat.ldiff a b &&& a = Nat.ldiff a b := by
    apply Nat.eq_of_testBit_eq
    intro i
    rw [Nat.testBit_and, Nat.testBit_ldiff]
    cases a.testBit i <;> cases b.testBit i <;> rfl
  exact le_trans (le_of_eq h.symm) Nat.and_le_right

/-- Python `x & 1` on an arbitrary integer yields 0 or 1. -/
lemma land1_cases (x : Int) : Int.land x 1 = 0 ∨ Int.land x 1 = 1 := by
  cases x with
  | ofNat m =>
      have h : Int.land (Int.ofNat m) 1 = ((m &&& 1 : Nat) : Int) := rfl
      have h2 : m &&& 1 ≤ 1 := Nat.and_le_right
      rw [h]
      omega
  | negSucc m =>
      have h : Int.land (Int.negSucc m) 1 = ((Nat.ldiff 1 m : Nat) : Int) := rfl
      have h2 : Nat.ldiff 1 m ≤ 1 := ldiff_le 1 m
      rw [h]
      omega

/-- Python `x & 3` on an arbitrary integer yields 0, 1, 2 or 3. -/
lemma land3_cases (x : Int) :
    Int.land x 3 = 0 ∨ Int.land x 3 = 1 ∨ Int.land x 3 = 2 ∨ Int.land x 3 = 3 := by
  cases x with
  | ofNat m =>
      have h : Int.land (Int.ofNat m) 3 = ((m &&& 3 : Nat) : Int) := rfl
      have h2 : m &&& 3 ≤ 3 := Nat.and_le_right
      rw [h]
      omega
  | negSucc m =>
      have h : Int.land (Int.negSucc m) 3 = ((Nat.ldiff 3 m : Nat) : Int) := rfl
      have h2 : Nat.ldiff 3 m ≤ 3 := ldiff_le 3 m
      rw [h]
      omega

/-- The normalized sample rate is 0, 1 or 2. -/
lemma normSps_cases (x : Int) : normSps x = 0 ∨ normSps x = 1 ∨ normSps x = 2 := by
  unfold normSps
  split_ifs with h1 h2
  · exact Or.inl h1
  · exact Or.inr (Or.inl h2)
  · exact Or.inr (Or.inr rfl)

/-- The normalized gain select field is 0, 1, 2 or 3. -/
lemma normGain_cases (x : Int) :
    normGain x = 0 ∨ normGain x = 1 ∨ normGain x = 2 ∨ normGain x = 3 := by
  simp only [normGain]
  by_cases h : x ∈ ([1, 2, 4, 8] : List Int)
  · rw [if_neg (not_not_intro h)]
    have h' : x = 1 ∨ x = 2 ∨ x = 4 ∨ x = 8 := by simpa using h
    rcases h' with rfl | rfl | rfl | rfl <;> decide
  · rw [if_pos h]
    decide

/-- Packing five normalized fields with shifts and bitwise or is the same
as a weighted sum, so each field occupies its own bit range. -/
lemma lor_pack (r c m s g : Int)
    (hr : r = 0 ∨ r = 1)
    (hc : c = 0 ∨ c = 1 ∨ c = 2 ∨ c = 3)
    (hm : m = 0 ∨ m = 1)
    (hs : s = 0 ∨ s = 1 ∨ s = 2)
    (hg : g = 0 ∨ g = 1 ∨ g = 2 ∨ g = 3) :
    Int.lor (Int.lor (Int.lor (Int.lor (r <<< (7 : Int)) (c <<< (5 : Int)))
        (m <<< (4 : Int))) (s <<< (2 : Int))) g =
      r * 128 + c * 32 + m * 16 + s * 4 + g := by
  rcases hr with rfl | rfl <;> rcases hc with rfl | rfl | rfl | rfl <;>
    rcases hm with rfl | rfl <;> rcases hs with rfl | rfl | rfl <;>
    rcases hg with rfl | rfl | rfl | rfl <;> decide

/-- The command byte computed by `set`, written with the normalization
helpers. -/
lemma set_cmd_eq (cmode rdy ch sps pga : Int) (w : Bool) :
    (set cmode rdy ch sps pga w).cmd =
      Int.lor (Int.lor (Int.lor (Int.lor (Int.land rdy 1 <<< (7 : Int))
        (Int.land ch 3 <<< (5 : Int))) (Int.land cmode 1 <<< (4 : Int)))
        (normSps sps <<< (2 : Int))) (normGain pga) := rfl

/-- The command byte as a weighted sum of the normalized fields. -/
lemma set_cmd_sum (cmode rdy ch sps pga : Int) (w : Bool) :
    (set cmode rdy ch sps pga w).cmd =
      Int.land rdy 1 * 128 + Int.land ch 3 * 32 + Int.land cmode 1 * 16 +
        normSps sps * 4 + normGain pga := by
  rw [set_cmd_eq]
  exact lor_pack _ _ _ _ _ (land1_cases rdy) (land3_cases ch)
    (land1_cases cmode) (normSps_cases sps) (normGain_cases pga)

/-- Bounds for the decoded value when the reconstructed raw value is below
`N` and the sign-extension constant equals `N - 1`. -/
lemma decode_range_aux (m b0 b1 N : Nat)
    (hu : (b0 &&& m) <<< 8 ||| b1 < N)
    (hc : m <<< 8 ||| 0xFF = N - 1) (hN : 1 ≤ N) :
    -(N : Int) ≤ decode m b0 b1 ∧ decode m b0 b1 ≤ (N : Int) - 1 := by
  simp only [decode]
  rw [hc]
  split_ifs with h <;> omega

/-- The command byte modulo 4 is exactly the normalized gain field. -/
lemma set_cmd_mod4 (cmode rdy ch sps pga : Int) (w : Bool) :
    (set cmode rdy ch sps pga w).cmd % 4 = normGain pga := by
  rw [set_cmd_sum]
  rcases normGain_cases pga with h | h | h | h <;> rw [h] <;> omega

/-- Claim C1: with decode mask 0x7F (16-bit resolution), `get_raw_data`
decodes the byte pair (0x7F, 0xFF) to 32767, the pair (0x80, 0x00) to
-32768, and the pair (0x00, 0x01) to 1. -/
theorem decode_16bit_values :
    (get_raw_data 0x7F (some (0x7F, 0xFF))).1 = Except.ok 32767 ∧
    (get_raw_data 0x7F (some (0x80, 0x00))).1 = Except.ok (-32768) ∧
    (get_raw_data 0x7F (some (0x00, 0x01))).1 = Except.ok 1 :=
  ⟨rfl, rfl, rfl⟩

/-- Claim C2: `set` assigns `self.msk` 0x07, 0x1F or 0x7F when the low two
bits of the sample-rate argument are 0, 1 or 2 respectively, and 0x7F for
any other value (the remaining case, low bits equal to 3). -/
theorem msk_from_sample_rate (cmode rdy ch sps pga : Int) (w : Bool) :
    (Int.land sps 3 = 0 → (set cmode rdy ch sps pga w).msk = 0x07) ∧
    (Int.land sps 3 = 1 → (set cmode rdy ch sps pga w).msk = 0x1F) ∧
    (Int.land sps 3 = 2 → (set cmode rdy ch sps pga w).msk = 0x7F) ∧
    (Int.land sps 3 ≠ 0 → Int.land sps 3 ≠ 1 → Int.land sps 3 ≠ 2 →
      (set cmode rdy ch sps pga w).msk = 0x7F) := by
  have hm : (set cmode rdy ch sps pga w).msk = mskOf sps := rfl
  refine ⟨fun h => ?_, fun h => ?_, fun h => ?_, fun h1 h2 h3 => ?_⟩ <;>
    rw [hm] <;> unfold mskOf <;> split_ifs <;> omega

/-- Witness for claim C2 at a sample rate whose low two bits are 3. -/
theorem msk_from_sample_rate_witness :
    Int.land 7 3 ≠ 0 ∧ Int.land 7 3 ≠ 1 ∧ Int.land 7 3 ≠ 2 ∧
      (set 0 0 0 7 1 true).msk = 0x7F :=
  ⟨by decide, by decide, by decide,
    (msk_from_sample_rate 0 0 0 7 1 true).2.2.2 (by decide) (by decide)
      (by decide)⟩

/-- Claim C3: the command byte packs the normalized fields as a weighted
sum with ready at bit 7, channel at bits 6-5, conversion mode at bit 4,
sample rate at bits 3-2 and gain select at bits 1-0, each field within its
bit width; for conversion mode 1, ready 0, channel 2, sample rate 1 and
gain 4 the returned byte is 0x56. -/
theorem cmd_bit_layout (cmode rdy ch sps pga : Int) (w : Bool) :
    ((set cmode rdy ch sps pga w).cmd =
        Int.land rdy 1 * 128 + Int.land ch 3 * 32 + Int.land cmode 1 * 16 +
          normSps sps * 4 + normGain pga) ∧
    (0 ≤ Int.land rdy 1 ∧ Int.land rdy 1 < 2) ∧
    (0 ≤ Int.land ch 3 ∧ Int.land ch 3 < 4) ∧
    (0 ≤ Int.land cmode 1 ∧ Int.land cmode 1 < 2) ∧
    (0 ≤ normSps sps ∧ normSps sps < 3) ∧
    (0 ≤ normGain pga ∧ normGain pga < 4) ∧
    (set 1 0 2 1 4 true).cmd = 0x56 := by
  refine ⟨set_cmd_sum cmode rdy ch sps pga w, ?_, ?_, ?_, ?_, ?_, by decide⟩
  · rcases land1_cases rdy with h | h <;> omega
  · rcases land3_cases ch with h | h | h | h <;> omega
  · rcases land1_cases cmode with h | h <;> omega
  · rcases normSps_cases sps with h | h | h <;> omega
  · rcases normGain_cases pga with h | h | h | h <;> omega

/-- Counterexample to claim C4: with mask 0x07 the byte pair (0x08, 0x00)
decodes to 0, not -2048, because bit 7 of 0x08 is clear so the sign branch
is not taken. -/
theorem decode_12bit_counterexample :
    (get_raw_data 0x07 (some (0x08, 0x00))).1 = Except.ok 0 ∧
      (0 : Int) ≠ -2048 :=
  ⟨rfl, by decide⟩

/-- Claim C4 (amended): with decode mask 0x07 (12-bit resolution),
`get_raw_data` decodes (0x07, 0xFF) to 2047; the pair (0x08, 0x00) decodes
to 0 since its bit 7 is clear; a pair with bit 7 set and the masked high
bits zero, such as (0x88, 0x00), decodes to -2048. -/
theorem decode_12bit_values :
    (get_raw_data 0x07 (some (0x07, 0xFF))).1 = Except.ok 2047 ∧
    (get_raw_data 0x07 (some (0x08, 0x00))).1 = Except.ok 0 ∧
    (get_raw_data 0x07 (some (0x88, 0x00))).1 = Except.ok (-2048) :=
  ⟨rfl, rfl, rfl⟩

/-- Claim C5: a gain argument outside {1,2,4,8} is silently replaced by 1,
so the gain field in the command byte (its low two bits) is 0, and the
valid gains 1, 2, 4, 8 map to the field values 0, 1, 2, 3. -/
theorem gain_field_encoding (cmode rdy ch sps : Int) (w : Bool) (pga : Int) :
    (pga ∉ ([1, 2, 4, 8] : List Int) →
      (set cmode rdy ch sps pga w).cmd % 4 = 0) ∧
    (set cmode rdy ch sps 1 w).cmd % 4 = 0 ∧
    (set cmode rdy ch sps 2 w).cmd % 4 = 1 ∧
    (set cmode rdy ch sps 4 w).cmd % 4 = 2 ∧
    (set cmode rdy ch sps 8 w).cmd % 4 = 3 := by
  refine ⟨fun h => ?_, ?_, ?_, ?_, ?_⟩ <;> rw [set_cmd_mod4]
  · simp only [normGain, if_pos h]
    decide
  · decide
  · decide
  · decide
  · decide

/-- Witness for claim C5 at the invalid gain value 5. -/
theorem gain_field_encoding_witness :
    (5 : Int) ∉ ([1, 2, 4, 8] : List Int) ∧
      (set 0 0 0 2 5 true).cmd % 4 = 0 :=
  ⟨by decide, (gain_field_encoding 0 0 0 2 true 5).1 (by decide)⟩

/-- Claim C6: when the bus write fails, `set` still produces the same
command byte and the same new mask as on success, the failure is only
logged, the mask update precedes the write in the trace, and the lock is
released at the end. -/
theorem set_write_failure_behavior (cmode rdy ch sps pga : Int) :
    (set cmode rdy ch sps pga false).cmd = (set cmode rdy ch sps pga true).cmd ∧
    (set cmode rdy ch sps pga false).msk = (set cmode rdy ch sps pga true).msk ∧
    (set cmode rdy ch sps pga false).events =
      [Event.mskUpdate (set cmode rdy ch sps pga false).msk, Event.lock,
        Event.write (set cmode rdy ch sps pga false).cmd false, Event.log,
        Event.unlock] :=
  ⟨rfl, rfl, rfl⟩

/-- Counterexample to claim C7: when the bus read fails, the caller does
receive an error, namely the UnboundLocalError raised by the decode
statement on the unbound read buffer. -/
theorem read_failure_counterexample :
    (get_raw_data 0x07 none).1 = Except.error "UnboundLocalError" := rfl

/-- Claim C7 (amended): when the bus read fails, the bus exception itself
is swallowed (logged, not re-raised), the lock is released and control
proceeds to the decode statement; but the decode statement then fails on
the unbound read buffer, so the caller receives an UnboundLocalError
instead of a decoded value. -/
theorem read_failure_behavior (msk : Nat) :
    (get_raw_data msk none).2 =
      [Event.lock, Event.readBytes false, Event.log, Event.unlock,
        Event.decodeStep] ∧
    (get_raw_data msk none).1 = Except.error "UnboundLocalError" :=
  ⟨rfl, rfl⟩

/-- Claim C8: `self.msk` starts at 0x07 and in every reachable state is
one of exactly 0x07, 0x1F and 0x7F. -/
theorem msk_invariant :
    ReachableMsk 0x07 ∧
      ∀ m, ReachableMsk m → m = 0x07 ∨ m = 0x1F ∨ m = 0x7F := by
  refine ⟨ReachableMsk.init, ?_⟩
  intro m h
  induction h with
  | init => exact Or.inl rfl
  | step m cmode rdy ch sps pga w hr ih =>
      have hm : (set cmode rdy ch sps pga w).msk = mskOf sps := rfl
      rw [hm]
      unfold mskOf
      split_ifs <;> simp

/-- Witness for claim C8 at the initial state. -/
theorem msk_invariant_witness :
    (0x07 : Nat) = 0x07 ∨ (0x07 : Nat) = 0x1F ∨ (0x07 : Nat) = 0x7F :=
  msk_invariant.2 0x07 ReachableMsk.init

/-- Claim C9: for any two received bytes, the value decoded by
`get_raw_data` lies in -2048..2047 for mask 0x07, -8192..8191 for mask
0x1F, and -32768..32767 for mask 0x7F. -/
theorem decoded_value_in_range (b0 b1 : Nat) (hb0 : b0 < 256)
    (hb1 : b1 < 256) :
    ((get_raw_data 0x07 (some (b0, b1))).1 = Except.ok (decode 0x07 b0 b1) ∧
      -2048 ≤ decode 0x07 b0 b1 ∧ decode 0x07 b0 b1 ≤ 2047) ∧
    ((get_raw_data 0x1F (some (b0, b1))).1 = Except.ok (decode 0x1F b0 b1) ∧
      -8192 ≤ decode 0x1F b0 b1 ∧ decode 0x1F b0 b1 ≤ 8191) ∧
    ((get_raw_data 0x7F (some (b0, b1))).1 = Except.ok (decode 0x7F b0 b1) ∧
      -32768 ≤ decode 0x7F b0 b1 ∧ decode 0x7F b0 b1 ≤ 32767) := by
  have h8 : b1 < 2 ^ 8 := hb1
  have k3 : b0 &&& 0x07 < 2 ^ 3 := lt_of_le_of_lt Nat.and_le_right (by decide)
  have k5 : b0 &&& 0x1F < 2 ^ 5 := lt_of_le_of_lt Nat.and_le_right (by decide)
  have k7 : b0 &&& 0x7F < 2 ^ 7 := lt_of_le_of_lt Nat.and_le_right (by decide)
  have u3 : (b0 &&& 0x07) <<< 8 ||| b1 < 2048 := by
    have := Nat.append_lt h8 k3
    norm_num at this
    exact this
  have u5 : (b0 &&& 0x1F) <<< 8 ||| b1 < 8192 := by
    have := Nat.append_lt h8 k5
    norm_num at this
    exact this
  have u7 : (b0 &&& 0x7F) <<< 8 ||| b1 < 32768 := by
    have := Nat.append_lt h8 k7
    norm_num at this
    exact this
  have r3 := decode_range_aux 0x07 b0 b1 2048 u3 (by decide) (by decide)
  have r5 := decode_range_aux 0x1F b0 b1 8192 u5 (by decide) (by decide)
  have r7 := decode_range_aux 0x7F b0 b1 32768 u7 (by decide) (by decide)
  refine ⟨⟨rfl, ?_, ?_⟩, ⟨rfl, ?_, ?_⟩, ⟨rfl, ?_, ?_⟩⟩ <;> omega

/-- Witness for claim C9 at the byte pair (255, 255). -/
theorem decoded_value_in_range_witness :
    (255 : Nat) < 256 ∧ -2048 ≤ decode 0x07 255 255 ∧
      decode 0x07 255 255 ≤ 2047 :=
  ⟨by decide, ((decoded_value_in_range 255 255 (by decide) (by decide)).1).2⟩

/-- Claim C10: for arbitrary integer arguments, including negative and
large ones, the command byte returned by `set` lies in 0..255. -/
theorem cmd_byte_range (cmode rdy ch sps pga : Int) (w : Bool) :
    0 ≤ (set cmode rdy ch sps pga w).cmd ∧
      (set cmode rdy ch sps pga w).cmd ≤ 255 := by
  obtain ⟨hr0, hr1⟩ : 0 ≤ Int.land rdy 1 ∧ Int.land rdy 1 ≤ 1 := by
    rcases land1_cases rdy with h | h <;> omega
  obtain ⟨hc0, hc1⟩ : 0 ≤ Int.land ch 3 ∧ Int.land ch 3 ≤ 3 := by
    rcases land3_cases ch with h | h | h | h <;> omega
  obtain ⟨hm0, hm1⟩ : 0 ≤ Int.land cmode 1 ∧ Int.land cmode 1 ≤ 1 := by
    rcases land1_cases cmode with h | h <;> omega
  obtain ⟨hs0, hs1⟩ : 0 ≤ normSps sps ∧ normSps sps ≤ 2 := by
    rcases normSps_cases sps with h | h | h <;> omega
  obtain ⟨hg0, hg1⟩ : 0 ≤ normGain pga ∧ normGain pga ≤ 3 := by
    rcases normGain_cases pga with h | h | h | h <;> omega
  rw [set_cmd_sum]
  constructor <;> omega
